import Mathlib

/-!
Verification of the imapsrv IMAP server core against its specification.

The Go source is shallowly embedded: pure fragments become Lean functions,
struct mutation becomes explicit state passing, the Go `(value, error)` returns
become `Except`, and Go runtime panics are modelled by a dedicated
constructor so that a panic is never confused with a returned error.
-/

/-- IMAP session states, from `src/session.go` (`notAuthenticated`,
`authenticated`, `selected`). -/
inductive SessState where
  | notAuthenticated
  | authenticated
  | selected
deriving DecidableEq, Repr

/-- Encryption levels, from `src/session.go` (`unencryptedLevel`,
`starttlsLevel`, `tlsLevel`). -/
inductive EncLevel where
  | unencrypted
  | starttls
  | tls
deriving DecidableEq, Repr

/-- Outcome of a Go call that can return a value, return a non-nil error,
or panic at runtime. The `panic` constructor models Go runtime panics
(index out of range, nil dereference); it is distinct from `err`, which
models a returned non-nil `error` value. -/
inductive GoResult (α : Type) where
  | ok (a : α)
  | err (msg : String)
  | panic (msg : String)
deriving Repr

/-- The `Mailbox` provider interface of `src/mailstore.go`: per-mailbox
queries, each returning a value or an error. `fetchOk uid` abstracts
whether `Fetch(uid)` succeeds (the message contents play no role in the
claims under verification). -/
structure Provider where
  path : List String
  uidValidity : Except String Int
  nextUid : Except String Int
  allUids : Except String (List Int)
  firstUnseen : Except String Int
  totalMessages : Except String Int
  recentMessages : Except String Int
  fetchOk : Int → Bool

/-- `mailboxWrap` of `src/mailboxWrap.go`: the provider plus the lazily
built sequence-number-to-UID array (`seqNums`, `nil` until first use).
`provider` is an `Option` because the Go `wrapMailbox` can wrap a nil
`Mailbox` interface value (the mailstore returns nil for a missing
mailbox); calling a method on that nil interface panics. -/
structure MailboxW where
  provider : Option Provider
  seqNums : Option (List Int)

/-- An IMAP session (`src/session.go`), restricted to the fields the
commands under verification read or write: state, user, selected mailbox,
connection encryption level and the encryption policy of the listener. -/
structure Session where
  st : SessState
  user : String
  mailbox : Option MailboxW
  encryption : EncLevel
  listenerEncryption : EncLevel

/-- Response conditions from `src/response.go`. -/
inductive Cond where
  | ok
  | no
  | bad
  | bye
deriving DecidableEq, Repr

/-- A final response (`finalResponse` in `src/response.go`): tag,
condition, message, close flag, the untagged lines accumulated with
`putLine`, and the optional replacement stream installed by STARTTLS
(`bufReplacement`), identified here by an opaque handle. -/
structure FinalResp where
  tag : String
  cond : Cond
  message : String
  closeConnection : Bool
  untagged : List String
  bufReplacement : Option Nat
deriving DecidableEq, Repr

/-- A response sent on the output channel of a handler: either a partial
(untagged-only) response or a final (tagged) response
(`src/response.go`). -/
inductive Resp where
  | untaggedOnly (entries : List String)
  | final (r : FinalResp)
deriving DecidableEq, Repr

/-- `ok(tag, message)` of `src/response.go`. -/
def okFinal (tag msg : String) : FinalResp :=
  { tag := tag, cond := .ok, message := msg, closeConnection := false,
    untagged := [], bufReplacement := none }

/-- `no(tag, message)` of `src/response.go`. -/
def noFinal (tag msg : String) : FinalResp :=
  { tag := tag, cond := .no, message := msg, closeConnection := false,
    untagged := [], bufReplacement := none }

/-- `bad(tag, message)` of `src/response.go`. -/
def badFinal (tag msg : String) : FinalResp :=
  { tag := tag, cond := .bad, message := msg, closeConnection := false,
    untagged := [], bufReplacement := none }

/-- `putLine` / `put`: append untagged lines to a final response. -/
def addUntagged (r : FinalResp) (lines : List String) : FinalResp :=
  { r with untagged := r.untagged ++ lines }

/-- `internalError` of `src/command.go`: a tagged NO carrying the error
text, with the close flag set. -/
def internalErrorResp (tag cmd errText : String) : Resp :=
  .final { noFinal tag (cmd ++ " " ++ errText) with closeConnection := true }

/-- `mustAuthenticate` of `src/command.go`: a tagged BAD. -/
def mustAuthenticateResp (tag cmd : String) : Resp :=
  .final (badFinal tag (cmd ++ " not authenticated"))

/-- Is a response a final (tagged) response? -/
def Resp.isFinal : Resp → Bool
  | .untaggedOnly _ => false
  | .final _ => true

/-- Number of final (tagged) responses in the output of a handler. -/
def countFinals (rs : List Resp) : Nat :=
  rs.countP Resp.isFinal

/-- Outcome of running a command handler: normal termination with the
resulting session, or a Go runtime panic inside the handler. -/
inductive ExecOutcome where
  | done (s : Session)
  | panicked (msg : String)

/-! ## LOGOUT (src/command.go, `logout.execute`, lines 149-157) -/

/-- `logout.execute`: sets `sess.st = notAuthenticated` and
`sess.user = ""` (the selected mailbox field is not touched), and sends
one final OK with the close flag and the untagged
`BYE IMAP4rev1 Server logging out` line. -/
def logoutExecute (s : Session) (tag : String) : List Resp × Session :=
  ([Resp.final { tag := tag, cond := .ok, message := "LOGOUT completed",
                 closeConnection := true,
                 untagged := ["BYE IMAP4rev1 Server logging out"],
                 bufReplacement := none }],
   { s with st := .notAuthenticated, user := "" })

/-! ## Panic recovery at the top of the session loop
(src/imap.go `client.handle` lines 192-248, and
src/unnamed/part_007 `imapClient.handle` lines 238-298) -/

/-- A value carried by a Go panic inside the command pipeline: either a
`parseError` (the type the lexer and parser panic with) or any other
value (e.g. a runtime error such as an index-out-of-range). -/
inductive PanicValue where
  | parseErr (msg : String)
  | otherValue (msg : String)
deriving DecidableEq, Repr

/-- What the deferred recover at the top of the session loop does with a
caught panic value. -/
inductive RecoverOutcome where
  | byeEmitted (msg : String)
  | processAbort (v : PanicValue)
  | loggedNoBye (v : PanicValue)
deriving DecidableEq, Repr

/-- The deferred recover of `client.handle` (src/imap.go lines 198-204):
`err := e.(parseError)` followed by `fatalResponse`. For a `parseError`
value this writes the untagged BYE; for any other value the unchecked
type assertion itself panics inside the deferred function, so the panic
escapes and the process aborts. -/
def clientHandleRecover : PanicValue → RecoverOutcome
  | .parseErr m => .byeEmitted m
  | .otherValue m => .processAbort (.otherValue m)

/-- The deferred recover of `imapClient.handle`
(src/unnamed/part_007 lines 244-257): a checked assertion; `parseError`
values get the BYE, other values are logged (production mode) or
re-panicked (otherwise). In neither case is a BYE emitted for them. -/
def imapClientHandleRecover (production : Bool) : PanicValue → RecoverOutcome
  | .parseErr m => .byeEmitted m
  | .otherValue m =>
    if production then .loggedNoBye (.otherValue m)
    else .processAbort (.otherValue m)

/-- Did the recover convert the panic into an untagged BYE response? -/
def RecoverOutcome.isBye : RecoverOutcome → Bool
  | .byeEmitted _ => true
  | _ => false

/-! ## STARTTLS (src/cmd_starttls.go `starttls.execute`, lines 18-30) and
the stream swap in the session loop (src/unnamed/part_007
`imapClient.handle` / `imapClient.execute`, lines 273-323) -/

/-- One observable step of `starttls.execute`: a write on the
still-plaintext connection, the `tls.Server` upgrade of the socket, or
a response emitted on the output channel. -/
inductive STEvent where
  | writePlain (s : String)
  | upgradeTLS
  | emit (r : Resp)
deriving DecidableEq, Repr

/-- `starttls.execute`: writes the tagged OK over the plaintext
connection, wraps the socket with `tls.Server`, sets
`sess.encryption = tlsLevel`, and emits an empty final response carrying
the replacement reader/writer (`shouldReplaceBuffers`). `newConn` is the
handle of the freshly wrapped text connection. -/
def starttlsExecute (s : Session) (tag : String) (newConn : Nat) :
    List STEvent × Session :=
  ([STEvent.writePlain (tag ++ " OK Begin TLS negotiation now" ++ "\r\n"),
    STEvent.upgradeTLS,
    STEvent.emit (.final { tag := "", cond := .ok, message := "",
                           closeConnection := false, untagged := [],
                           bufReplacement := some newConn })],
   { s with encryption := .tls })

/-- The response-draining loop of `imapClient.execute`
(src/unnamed/part_007 lines 290-323): writes each response, records the
`bufReplacement` of every final response (last one wins), and clears
`keepOpen` on any response with the close flag. -/
def drainResponses (rs : List Resp) : Bool × Option Nat :=
  rs.foldl
    (fun acc r =>
      match r with
      | .untaggedOnly _ => acc
      | .final f =>
        ((acc.1 && !f.closeConnection), f.bufReplacement))
    (true, none)

/-- The buffer-swap step of `imapClient.handle`
(src/unnamed/part_007 lines 273-285): after the responses of a command are
drained, the loop exits if the connection is to close (`none`); otherwise
the next `parser.next()` reads from the replacement buffers when the
command supplied them, and from the current buffers otherwise. -/
def nextParseBuffers (cur : Nat) (rs : List Resp) : Option Nat :=
  let d := drainResponses rs
  if d.1 then some (d.2.getD cur) else none

/-- The responses (channel traffic only) of a STARTTLS execution. -/
def starttlsResponses (s : Session) (tag : String) (newConn : Nat) : List Resp :=
  ((starttlsExecute s tag newConn).1).filterMap
    (fun e => match e with
      | .emit r => some r
      | _ => none)

/-! ## Sequence-number to UID mapping
(src/mailboxWrap.go `mailboxWrap.getUid` lines 78-97 and
`mailboxWrap.fetch` lines 60-75) -/

/-- Go array indexing `arr[i]` on an `int32` index: a value when
`0 <= i < len(arr)`, otherwise a runtime panic. -/
def goIndex (arr : List Int) (i : Int) : GoResult Int :=
  if h : 0 ≤ i ∧ i.toNat < arr.length then .ok (arr.get ⟨i.toNat, h.2⟩)
  else .panic "runtime error: index out of range"

/-- `mailboxWrap.getUid`: on first use builds `seqNums` by copying
`provider.AllUids()` (returning the error of the provider, if any), then
returns `m.seqNums[seqnum]` — the raw sequence number indexes the
0-based array with no bounds or zero adjustment. Returns the UID
together with the (possibly cache-updated) wrapper. -/
def MailboxW.getUid (m : MailboxW) (seqnum : Int) :
    GoResult (Int × MailboxW) :=
  match m.seqNums with
  | some arr =>
    match goIndex arr seqnum with
    | .ok uid => .ok (uid, m)
    | .err e => .err e
    | .panic e => .panic e
  | none =>
    match m.provider with
    | none =>
      .panic "runtime error: invalid memory address or nil pointer dereference"
    | some p =>
      match p.allUids with
      | .error e => .err e
      | .ok uids =>
        let m2 : MailboxW := { m with seqNums := some uids }
        match goIndex uids seqnum with
        | .ok uid => .ok (uid, m2)
        | .err e => .err e
        | .panic e => .panic e

/-- `mailboxWrap.fetch`: resolves the sequence number to a UID via
`getUid`, then fetches the message by UID from the provider
(`m.provider.Fetch(uid)`); a provider fetch failure is a returned
error. -/
def MailboxW.fetchSeq (m : MailboxW) (seqnum : Int) : GoResult MailboxW :=
  match m.getUid seqnum with
  | .panic e => .panic e
  | .err e => .err e
  | .ok (uid, m2) =>
    match m2.provider with
    | none =>
      .panic "runtime error: invalid memory address or nil pointer dereference"
    | some p => if p.fetchOk uid then .ok m2 else .err "fetch failed"

/-! ## CAPABILITY (src/cmd_capability.go `capability.execute`, lines
16-46) and LOGIN (src/unnamed/part_019 `login.execute`, lines 23-45) -/

/-- The capability keywords accumulated by `capability.execute`: on an
unauthenticated session, a STARTTLS-negotiable listener advertises
`STARTTLS` and `LOGINDISABLED` unless the connection is already
TLS-active; the plaintext and TLS-mandatory listener cases, and the
authenticated case, add nothing (their additions are commented out in
the source). -/
def capabilityList (s : Session) : List String :=
  if s.st = .notAuthenticated then
    match s.listenerEncryption with
    | .unencrypted => []
    | .starttls =>
      if s.encryption = .tls then [] else ["STARTTLS", "LOGINDISABLED"]
    | .tls => []
  else []

/-- `capability.execute`: a single final OK whose untagged line joins the
capability keywords after `CAPABILITY IMAP4rev1 `. -/
def capabilityExecute (s : Session) (tag : String) : List Resp :=
  [Resp.final (addUntagged (okFinal tag "CAPABILITY completed")
    ["CAPABILITY IMAP4rev1 " ++ String.intercalate " " (capabilityList s)])]

/-- The authentication backend collaborator
(`auth.AuthStore.Authenticate`): success flag and optional error. -/
structure AuthBackend where
  authenticate : String → String → Bool × Option String

/-- `login.execute`: BAD if already logged in; otherwise it always calls
`AuthBackend.Authenticate` — there is no check of the listener encryption policy or the session encryption level — and answers OK
(setting user and state) or NO according to the verdict of the backend. The
returned boolean records whether execution reached the `Authenticate`
call. -/
def loginExecute (s : Session) (auth : AuthBackend)
    (tag userId password : String) : List Resp × Session × Bool :=
  if s.st ≠ .notAuthenticated then
    ([Resp.final (badFinal tag "LOGIN already logged in")], s, false)
  else
    let v := auth.authenticate userId password
    if v.1 then
      ([Resp.final (okFinal tag "LOGIN completed")],
       { s with st := .authenticated, user := userId }, true)
    else
      ([Resp.final (noFinal tag "LOGIN failure")], s, true)

/-! ## Mailbox info and NOOP
(src/session.go `session.addMailboxInfo` lines 122-154 and
src/cmd_noop.go `noop.execute` lines 14-28) -/

/-- `session.addMailboxInfo`: queries first-unseen, total, recent,
next-UID and UID-validity from the provider of the selected mailbox; the
first failing query aborts with its error, with no lines added. On a
nil provider (wrapped missing mailbox) the method call panics. -/
def addMailboxInfo (mb : Option MailboxW) : GoResult (List String) :=
  match mb with
  | none =>
    .panic "runtime error: invalid memory address or nil pointer dereference"
  | some w =>
    match w.provider with
    | none =>
      .panic "runtime error: invalid memory address or nil pointer dereference"
    | some p =>
      match p.firstUnseen with
      | .error e => .err e
      | .ok fu =>
        match p.totalMessages with
        | .error e => .err e
        | .ok tot =>
          match p.recentMessages with
          | .error e => .err e
          | .ok rc =>
            match p.nextUid with
            | .error e => .err e
            | .ok nu =>
              match p.uidValidity with
              | .error e => .err e
              | .ok uv =>
                .ok [toString tot ++ " EXISTS",
                     toString rc ++ " RECENT",
                     "OK [UNSEEN " ++ toString fu ++ "] Message " ++
                       toString fu ++ " is first unseen",
                     "OK [UIDVALIDITY " ++ toString uv ++ "] UIDs valid",
                     "OK [UIDNEXT " ++ toString nu ++ "] Predicted next UID"]

/-- `noop.execute`: builds `res := ok(tag, "NOOP Completed")`; in
Selected state it runs `addMailboxInfo(res)` and, when that fails, sends
a final NO — without returning — and then in every case sends `res`.
So on a provider failure the handler emits two final responses. -/
def noopExecute (s : Session) (tag : String) : List Resp × ExecOutcome :=
  let res := okFinal tag "NOOP Completed"
  if s.st = .selected then
    match addMailboxInfo s.mailbox with
    | .panic e => ([], .panicked e)
    | .err _ =>
      ([Resp.final (noFinal tag "NOOP failed"), Resp.final res], .done s)
    | .ok lines => ([Resp.final (addUntagged res lines)], .done s)
  else ([Resp.final res], .done s)

/-! ## FETCH (src/cmd_fetch.go `fetch.execute` lines 62-108,
src/command.go `largestSequenceNumber` line 23, and
src/parser.go `parser.expectSequenceNumber` lines 219-235) -/

/-- `largestSequenceNumber` (src/command.go): the sentinel the parser
substitutes for the wildcard `*`, defined as `math.MaxInt32`. -/
def largestSequenceNumber : Int := 2147483647

/-- A sequence-number token as read by the lexer: a (possibly zero)
integer or the wildcard `*`. -/
inductive SeqToken where
  | num (n : Int)
  | star
deriving DecidableEq, Repr

/-- `parser.expectSequenceNumber`: a numeric token is returned as is; the
wildcard is replaced by the `largestSequenceNumber` sentinel. -/
def expectSequenceNumber : SeqToken → Int
  | .num n => n
  | .star => largestSequenceNumber

/-- A `sequenceRange` (src/cmd_fetch.go): start and optional end. -/
structure SequenceRange where
  start : Int
  stop : Option Int
deriving DecidableEq, Repr

/-- Modelled from the spec: `session.fetch(response, seqnum, attachments)`
is called by `fetch.execute` (src/cmd_fetch.go line 89) but its
definition does not appear under src/ (src/session.go only carries the
older two-argument variant). Per spec section 4.5 it fetches the message
with the given sequence number from the selected mailbox of the session —
which goes through `mailboxWrap.fetch` of src/mailboxWrap.go, modelled
above as `MailboxW.fetchSeq` — and appends one field per attachment to
the response; the attachment serialisation itself does not affect the
claims and is not modelled. A nil selected mailbox makes the method
dereference panic. -/
def sessionFetch (s : Session) (seqnum : Int) : GoResult Session :=
  match s.mailbox with
  | none =>
    .panic "runtime error: invalid memory address or nil pointer dereference"
  | some m =>
    match m.fetchSeq seqnum with
    | .ok m2 => .ok { s with mailbox := some m2 }
    | .err e => .err e
    | .panic e => .panic e

/-- How the loop over one sequence range ends: it ran to the end of the
range, the handler returned early after an `internalError` response, or
a Go panic escaped. -/
inductive LoopExit where
  | ranToEnd (s : Session)
  | returned (s : Session)
  | panicked (msg : String)

/-- Number of iterations of the do-while loop of `fetch.execute` over one
sequence range when no fetch fails: one for a bare sequence number, and
`stop - start + 1` (at least one — the body runs before the exit test)
for a range. Used as structural fuel for `fetchRangeLoop`. -/
def rangeIterations (start : Int) (stop : Option Int) : Nat :=
  match stop with
  | none => 1
  | some e => if start ≤ e then (e - start + 1).toNat else 1

/-- The inner do-while of `fetch.execute` (src/cmd_fetch.go lines 81-104):
build a partial response `"<i> FETCH"`, run `sess.fetch`; on a returned
error emit `internalError` and return from the handler; on success emit
the partial response, increment `i`, and exit when the range end is
absent or passed. `fuel` is `rangeIterations` of the remaining range and
is exact: the zero case is unreachable. -/
def fetchRangeLoop (s : Session) (tag : String) (i : Int)
    (stop : Option Int) : Nat → List Resp × LoopExit
  | 0 => ([], .ranToEnd s)
  | fuel + 1 =>
    match sessionFetch s i with
    | .panic e => ([], .panicked e)
    | .err e => ([internalErrorResp tag "FETCH" e], .returned s)
    | .ok s2 =>
      let r := Resp.untaggedOnly [toString i ++ " FETCH"]
      match stop with
      | none => ([r], .ranToEnd s2)
      | some e =>
        if i + 1 > e then ([r], .ranToEnd s2)
        else
          let rest := fetchRangeLoop s2 tag (i + 1) (some e) fuel
          (r :: rest.1, rest.2)

/-- The outer loop of `fetch.execute` over the parsed sequence set. -/
def fetchRanges (s : Session) (tag : String) :
    List SequenceRange → List Resp × LoopExit
  | [] => ([], .ranToEnd s)
  | r :: rest =>
    match fetchRangeLoop s tag r.start r.stop
        (rangeIterations r.start r.stop) with
    | (rs, .ranToEnd s2) =>
      let tail := fetchRanges s2 tag rest
      (rs ++ tail.1, tail.2)
    | (rs, .returned s2) => (rs, .returned s2)
    | (rs, .panicked e) => (rs, .panicked e)

/-- `fetch.execute`: BAD and return when unauthenticated; when
authenticated but not selected it sends BAD `Must SELECT first` and —
without returning — falls through into the fetch loop; then one partial
response per sequence number and a closing final OK, with an
`internalError` NO (close flag set) aborting the handler on a returned
fetch error. -/
def fetchExecute (s : Session) (tag : String) (seqSet : List SequenceRange) :
    List Resp × ExecOutcome :=
  if s.st = .notAuthenticated then
    ([mustAuthenticateResp tag "FETCH"], .done s)
  else
    let pre :=
      if s.st ≠ .selected then
        [Resp.final (badFinal tag "Must SELECT first")]
      else []
    match fetchRanges s tag seqSet with
    | (rs, .ranToEnd s2) =>
      (pre ++ rs ++ [Resp.final (okFinal tag "FETCH completed")], .done s2)
    | (rs, .returned s2) => (pre ++ rs, .done s2)
    | (rs, .panicked e) => (pre ++ rs, .panicked e)

/-! ## Mailbox lookup and STATUS
(src/mailboxWrap.go `getMailbox` lines 28-35,
src/session.go `session.selectMailbox` lines 47-63, and
src/cmd_status.go `status.execute` lines 18-51) -/

/-- The `Mailstore` collaborator (src/mailstore.go): looks a mailbox up
by path, returning `none` (a nil interface value) when it does not
exist, or an error. -/
structure Mailstore where
  mailboxAt : List String → Except String (Option Provider)

/-- `wrapMailbox` (src/mailboxWrap.go lines 53-57): a fresh wrapper
around the `Mailbox` interface value from the store, with no UID cache; the
returned wrapper is never nil, even around a nil interface value. -/
def wrapMailbox (p : Option Provider) : MailboxW :=
  { provider := p, seqNums := none }

/-- `getMailbox` (src/mailboxWrap.go): propagates the lookup error of the store,
otherwise wraps the returned `Mailbox` in a fresh `mailboxWrap` —
including a nil one: `wrapMailbox` never returns a nil pointer, so a
missing mailbox comes back as a wrapper holding a nil provider. -/
def getMailboxW (store : Mailstore) (path : List String) :
    Except String MailboxW :=
  match store.mailboxAt path with
  | .error e => .error e
  | .ok p => .ok (wrapMailbox p)

/-- `session.selectMailbox`: propagates the lookup error; otherwise the
`mbox == nil` test compares the wrapper pointer, which `wrapMailbox`
never makes nil, so the not-found branch (`false` without error) is
unreachable and the wrapper — even one around a nil provider — is
installed as the mailbox of the session with `true` returned. -/
def selectMailboxS (s : Session) (store : Mailstore) (path : List String) :
    Except String (Bool × Session) :=
  match getMailboxW store path with
  | .error e => .error e
  | .ok mbox => .ok (true, { s with mailbox := some mbox })

/-- Outcome of a handler run that threads the session: normal completion
or an escaped Go panic. -/
inductive StatusOutcome where
  | done (s : Session)
  | panicked (msg : String)

/-- `status.execute`: BAD when unauthenticated; then `selectMailbox` —
which permanently installs the STATUS target as the selected
mailbox of the session — with a lookup error answered by `internalError`; the
not-found branch (final NO, state to Authenticated) as written in the
source, though `selectMailbox` can never take it; then the mailbox-info
lines on a final OK, a failing info query again answered by
`internalError` (tagged `SELECT` in the source). -/
def statusExecute (s : Session) (store : Mailstore) (tag : String)
    (path : List String) : List Resp × StatusOutcome :=
  if s.st = .notAuthenticated then
    ([mustAuthenticateResp tag "STATUS"], .done s)
  else
    match selectMailboxS s store path with
    | .error e => ([internalErrorResp tag "STATUS" e], .done s)
    | .ok (false, s2) =>
      ([Resp.final (noFinal tag "STATUS No such mailbox")],
       .done { s2 with st := .authenticated })
    | .ok (true, s2) =>
      match addMailboxInfo s2.mailbox with
      | .panic e => ([], .panicked e)
      | .err e => ([internalErrorResp tag "SELECT" e], .done s2)
      | .ok lines =>
        ([Resp.final (addUntagged (okFinal tag "STATUS completed") lines)],
         .done s2)

/-! ## The literal recogniser of the line-based lexer
(src/unnamed/part_005 `lexer.literal` lines 409-460 and the low-level
cursor operations, lines 528-588; the byte lexer of src/lexer.go lines
125-161 shares the count parsing and exact-length read loop) -/

/-- ASCII `lf`. -/
def lfByte : Nat := 10

/-- ASCII `0`. -/
def zeroByte : Nat := 48

/-- ASCII `9`. -/
def nineByte : Nat := 57

/-- ASCII right curly bracket. -/
def rightCurlyByte : Nat := 125

/-- The lexer cursor state: the not-yet-consumed suffix of the current
line (the `line`/`idx` pair of the source, represented by the bytes from
`idx` on) and the remaining lines of the underlying reader, each already
stripped of its CRLF by `textproto.ReadLineBytes`. -/
structure LexState where
  line : List Nat
  rest : List (List Nat)

/-- A parse error, the value the lexer panics with. -/
inductive LexError where
  | parseErr (msg : String)
deriving DecidableEq, Repr

/-- `lexer.current()`: the byte under the cursor, or a linefeed once the
line is exhausted. -/
def LexState.current (st : LexState) : Nat :=
  match st.line with
  | [] => lfByte
  | c :: _ => c

/-- `lexer.newLine()`: fetch the next underlying line, failing (a panic
with a parse error) at end of input. -/
def LexState.newLine (st : LexState) : Except LexError LexState :=
  match st.rest with
  | [] => .error (.parseErr "EOF")
  | l :: ls => .ok { line := l, rest := ls }

/-- `lexer.consumeAll()`: advance one byte, fetching the next underlying
line when the current one is exhausted. -/
def LexState.consumeAll (st : LexState) : Except LexError LexState :=
  match st.line with
  | [] => st.newLine
  | _ :: t => .ok { st with line := t }

/-- The literal-length loop of `lexer.literal`: read bytes of the current
line up to the closing curly bracket, failing on any non-digit
(including the linefeed that stands for an exhausted line, i.e. a
missing closing bracket). -/
def literalCountDigits : List Nat → Except LexError (List Nat)
  | [] => .error (.parseErr "Unexpected character in literal length")
  | c :: rest =>
    if c = rightCurlyByte then .ok []
    else if c < zeroByte ∨ nineByte < c then
      .error (.parseErr "Unexpected character in literal length")
    else
      match literalCountDigits rest with
      | .ok ds => .ok (c :: ds)
      | .error e => .error e

/-- The numeric value of a run of ASCII digits, most significant
first. -/
def digitsValue (ds : List Nat) : Nat :=
  ds.foldl (fun a d => 10 * a + (d - zeroByte)) 0

/-- `strconv.ParseInt(string(lengthBuffer), 10, 32)` on the collected
digits: fails on an empty buffer and on values beyond the 32-bit signed
range. -/
def parseLiteralLength (ds : List Nat) : Except LexError Nat :=
  if ds = [] then .error (.parseErr "invalid syntax")
  else if digitsValue ds ≤ 2147483647 then .ok (digitsValue ds)
  else .error (.parseErr "value out of range")

/-- The byte-reading loop of `lexer.literal`: append the current byte,
decrement the remaining count, stop at zero, otherwise `consumeAll` and
continue. The zero case is unreachable (the caller handles a zero
length before the loop). -/
def literalRead : Nat → LexState → Except LexError (List Nat × LexState)
  | 0, st => .ok ([], st)
  | 1, st => .ok ([st.current], st)
  | n + 2, st =>
    match st.consumeAll with
    | .error e => .error e
    | .ok st2 =>
      match literalRead (n + 1) st2 with
      | .error e => .error e
      | .ok (bs, st3) => .ok (st.current :: bs, st3)

/-- `lexer.literal` (src/unnamed/part_005 lines 409-460), entered with
the cursor just past the opening curly bracket: parse the length count,
parse it as a 32-bit integer, move to the next underlying line, and
return the empty token for a non-positive length or read exactly
`length` bytes across as many lines as needed. -/
def lexLiteral (st : LexState) : Except LexError (List Nat × LexState) :=
  match literalCountDigits st.line with
  | .error e => .error e
  | .ok ds =>
    match parseLiteralLength ds with
    | .error e => .error e
    | .ok len =>
      match st.newLine with
      | .error e => .error e
      | .ok st2 =>
        if len = 0 then .ok ([], st2)
        else literalRead len st2

/-- The number of stream positions a list of underlying lines yields for
the literal reader: each line contributes its bytes plus the one
linefeed that `current` synthesises at its end. -/
def availLines (lines : List (List Nat)) : Nat :=
  (lines.map (fun l => l.length + 1)).sum

/-- The stream positions available from a lexer state onwards. -/
def availState (st : LexState) : Nat :=
  st.line.length + 1 + availLines st.rest

/-- The untagged `"<i> FETCH"` responses for `n` consecutive sequence
numbers starting at `i`, in ascending order. -/
def rangePartials (i : Int) : Nat → List Resp
  | 0 => []
  | n + 1 =>
    Resp.untaggedOnly [toString i ++ " FETCH"] :: rangePartials (i + 1) n

/-- Does `sess.fetch` succeed at sequence number `j` on the cached UID
array `uids`: the index is in bounds and the provider fetch of the UID
found there succeeds. -/
def fetchSucceedsAt (p : Provider) (uids : List Int) (j : Int) : Bool :=
  decide (0 ≤ j) &&
    (match uids.get? j.toNat with
     | some u => p.fetchOk u
     | none => false)

/-- A provider with two messages, UIDs 6 and 9 in ascending order, whose
queries all succeed. -/
def provTwo : Provider :=
  { path := ["inbox"], uidValidity := .ok 1, nextUid := .ok 10,
    allUids := .ok [6, 9], firstUnseen := .ok 6, totalMessages := .ok 2,
    recentMessages := .ok 0, fetchOk := fun _ => true }

/-- A second two-message provider (UIDs 4 and 7), used only to witness
`getUid_unchecked_indexing`. -/
def provTwoW : Provider :=
  { path := ["inbox"], uidValidity := .ok 1, nextUid := .ok 8,
    allUids := .ok [4, 7], firstUnseen := .ok 4, totalMessages := .ok 2,
    recentMessages := .ok 0, fetchOk := fun _ => true }

/-- An unauthenticated session on a STARTTLS-negotiable listener whose
connection is still plaintext. -/
def sessPlainStarttls : Session :=
  { st := .notAuthenticated, user := "", mailbox := none,
    encryption := .unencrypted, listenerEncryption := .starttls }

/-- An auth backend that accepts every credential pair. -/
def authAlwaysYes : AuthBackend :=
  { authenticate := fun _ _ => (true, none) }

/-- A provider whose mailbox-info queries fail (the first-unseen query
returns an error). -/
def provInfoFails : Provider :=
  { path := ["inbox"], uidValidity := .ok 1, nextUid := .ok 10,
    allUids := .ok [6, 9], firstUnseen := .error "disk failure",
    totalMessages := .ok 2, recentMessages := .ok 0,
    fetchOk := fun _ => true }

/-- A Selected session over the failing provider. -/
def sessSelFailing : Session :=
  { st := .selected, user := "alice",
    mailbox := some { provider := some provInfoFails, seqNums := none },
    encryption := .unencrypted, listenerEncryption := .unencrypted }

/-- An Authenticated (not Selected) session with no selected mailbox. -/
def sessAuthNoMailbox : Session :=
  { st := .authenticated, user := "alice", mailbox := none,
    encryption := .unencrypted, listenerEncryption := .unencrypted }

/-- A provider with two messages (UIDs 10 and 20) where every fetch
succeeds. -/
def provTwoMsgs : Provider :=
  { path := ["inbox"], uidValidity := .ok 1, nextUid := .ok 21,
    allUids := .ok [10, 20], firstUnseen := .ok 10,
    totalMessages := .ok 2, recentMessages := .ok 0,
    fetchOk := fun _ => true }

/-- A Selected session over the two-message mailbox with the UID cache
not yet built. -/
def sessTwoMsgs : Session :=
  { st := .selected, user := "alice",
    mailbox := some { provider := some provTwoMsgs, seqNums := none },
    encryption := .unencrypted, listenerEncryption := .unencrypted }

/-- A Selected session over the two-message mailbox with the UID cache
already built, used only to witness `fetch_range_line_count`. -/
def sessTwoCached : Session :=
  { st := .selected, user := "alice",
    mailbox := some { provider := some provTwoMsgs, seqNums := some [10, 20] },
    encryption := .unencrypted, listenerEncryption := .unencrypted }

/-- A provider for mailbox `A`, all queries succeeding. -/
def provStatusA : Provider :=
  { path := ["A"], uidValidity := .ok 1, nextUid := .ok 5,
    allUids := .ok [1, 2], firstUnseen := .ok 1, totalMessages := .ok 2,
    recentMessages := .ok 1, fetchOk := fun _ => true }

/-- A provider for mailbox `B`, all queries succeeding. -/
def provStatusB : Provider :=
  { path := ["B"], uidValidity := .ok 2, nextUid := .ok 9,
    allUids := .ok [3, 8], firstUnseen := .ok 3, totalMessages := .ok 2,
    recentMessages := .ok 0, fetchOk := fun _ => true }

/-- A Selected session holding mailbox `A`. -/
def sessSelA : Session :=
  { st := .selected, user := "alice",
    mailbox := some { provider := some provStatusA, seqNums := none },
    encryption := .unencrypted, listenerEncryption := .unencrypted }

/-- A mailstore that has mailbox `B` and nothing else (a lookup of any
other path returns the nil mailbox with no error, as the `Mailstore`
interface documents for a missing mailbox). -/
def storeOnlyB : Mailstore :=
  { mailboxAt := fun path =>
      if path = ["B"] then .ok (some provStatusB) else .ok none }

/-- The session, if any, in which a STATUS run terminated. -/
def StatusOutcome.sessionOf : StatusOutcome → Option Session
  | .done s => some s
  | .panicked _ => none

/-- The path of the provider behind the selected mailbox of the session. -/
def Session.mailboxPath (s : Session) : Option (List String) :=
  s.mailbox.bind (fun w => w.provider.map Provider.path)

/-! ## Theorems -/

/-- `rangePartials i n` holds exactly `n` untagged lines. -/
theorem rangePartials_length (i : Int) (n : Nat) :
    (rangePartials i n).length = n := by
  induction n generalizing i with
  | zero => rfl
  | succ m ih => simp [rangePartials, ih]

/-- `rangePartials` enumerated: the `t`-th line (0-based) is the
`"<i+t> FETCH"` untagged response. -/
theorem rangePartials_eq_map (i : Int) (n : Nat) :
    rangePartials i n =
      (List.range n).map
        (fun t => Resp.untaggedOnly [toString (i + Int.ofNat t) ++ " FETCH"]) := by
  induction n generalizing i with
  | zero => rfl
  | succ m ih =>
    have hr : rangePartials i (m + 1) =
        Resp.untaggedOnly [toString i ++ " FETCH"] :: rangePartials (i + 1) m :=
      rfl
    rw [hr, ih, List.range_succ_eq_map, List.map_cons, List.map_map]
    congr 1
    · norm_num
    · apply List.map_congr_left
      intro t _
      have hc : i + 1 + (t : Int) = i + ((t : Int) + 1) := by ring
      simp [Function.comp, hc]

/-- On a session whose selected mailbox has its UID cache built,
a succeeding `sess.fetch` leaves the session unchanged. -/
theorem sessionFetch_cached_ok (s : Session) (p : Provider)
    (uids : List Int) (i : Int)
    (hmb : s.mailbox = some { provider := some p, seqNums := some uids })
    (h : fetchSucceedsAt p uids i = true) :
    sessionFetch s i = .ok s := by
  obtain ⟨st, u, mb, enc, lenc⟩ := s
  subst hmb
  unfold fetchSucceedsAt at h
  rw [Bool.and_eq_true] at h
  obtain ⟨h0, h1⟩ := h
  have h0' : (0 : Int) ≤ i := of_decide_eq_true h0
  cases hg : uids.get? i.toNat with
  | none => rw [hg] at h1; exact absurd h1 (by simp)
  | some u2 =>
    rw [hg] at h1
    have h1' : p.fetchOk u2 = true := by simpa using h1
    obtain ⟨hlt, hget⟩ := List.get?_eq_some.mp hg
    have hge : uids[i.toNat] = u2 := by
      simpa [List.get_eq_getElem] using hget
    simp [sessionFetch, MailboxW.fetchSeq, MailboxW.getUid, goIndex,
      dif_pos (And.intro h0' hlt), hge, h1']

/-- The fetch loop over the range `i : b`, when every fetch in the range
succeeds on the cached UID array, emits exactly the `"<n> FETCH"` lines
for `n = i..b` in order and runs to the end of the range. -/
theorem fetchRangeLoop_all_ok (p : Provider) (uids : List Int)
    (tag : String) (b : Int) :
    ∀ (n : Nat) (s : Session) (i : Int),
      s.mailbox = some { provider := some p, seqNums := some uids } →
      i ≤ b → n = (b - i + 1).toNat →
      (∀ t : Nat, t < n → fetchSucceedsAt p uids (i + t) = true) →
      fetchRangeLoop s tag i (some b) n = (rangePartials i n, .ranToEnd s) := by
  intro n
  induction n with
  | zero => intro s i _ hib hn _; omega
  | succ m ih =>
    intro s i hmb hib hn hok
    have hstep : sessionFetch s i = .ok s := by
      have := hok 0 (Nat.succ_pos m)
      simpa using sessionFetch_cached_ok s p uids i hmb (by simpa using this)
    by_cases hend : i + 1 > b
    · have hi : i = b := by omega
      have hm : m = 0 := by omega
      subst hm
      simp [fetchRangeLoop, hstep, if_pos hend, rangePartials]
    · have hm : m = (b - (i + 1) + 1).toNat := by omega
      have hrec := ih s (i + 1) hmb (by omega) hm
        (fun t ht => by
          have := hok (t + 1) (by omega)
          have hc : i + ((t : Int) + 1) = i + 1 + (t : Int) := by ring
          simpa [hc] using this)
      simp [fetchRangeLoop, hstep, if_neg hend, hrec, rangePartials]

/-- The length-count loop accepts a run of digits up to the closing
curly bracket and returns exactly those digits. -/
theorem literalCountDigits_digits (ds : List Nat) (tail : List Nat)
    (hds : ∀ d ∈ ds, zeroByte ≤ d ∧ d ≤ nineByte) :
    literalCountDigits (ds ++ rightCurlyByte :: tail) = .ok ds := by
  induction ds with
  | nil => simp [literalCountDigits]
  | cons d rest ih =>
    have hd := hds d (List.mem_cons_self d rest)
    have hne : ¬ d = rightCurlyByte := by
      simp only [zeroByte, nineByte, rightCurlyByte] at hd ⊢
      omega
    have hdig : ¬ (d < zeroByte ∨ nineByte < d) := by
      simp only [zeroByte, nineByte] at hd ⊢
      omega
    have ih2 := ih (fun e he => hds e (List.mem_cons_of_mem d he))
    simp [literalCountDigits, hne, hdig, ih2]

/-- The length-count loop fails on the first non-digit byte that is not
the closing curly bracket, wherever it sits in the count. -/
theorem literalCountDigits_nondigit (pre : List Nat) (c : Nat)
    (post : List Nat)
    (hpre : ∀ d ∈ pre, zeroByte ≤ d ∧ d ≤ nineByte)
    (hc : c < zeroByte ∨ nineByte < c) (hcc : c ≠ rightCurlyByte) :
    (literalCountDigits (pre ++ c :: post)).isOk = false := by
  induction pre with
  | nil => simp [literalCountDigits, hcc, hc, Except.isOk, Except.toBool]
  | cons d rest ih =>
    have hd := hpre d (List.mem_cons_self d rest)
    have hne : ¬ d = rightCurlyByte := by
      simp only [zeroByte, nineByte, rightCurlyByte] at hd ⊢
      omega
    have hdig : ¬ (d < zeroByte ∨ nineByte < d) := by
      simp only [zeroByte, nineByte] at hd ⊢
      omega
    have ih2 := ih (fun e he => hpre e (List.mem_cons_of_mem d he))
    cases hrec : literalCountDigits (rest ++ c :: post) with
    | ok ds =>
      rw [hrec] at ih2
      exact absurd ih2 (by simp [Except.isOk, Except.toBool])
    | error e =>
      simp [literalCountDigits, hne, hdig, hrec, Except.isOk, Except.toBool]

/-- The byte-reading loop of the literal recogniser returns exactly
`fuel` bytes whenever the remaining lines offer at least `fuel` stream
positions, regardless of how those positions are split across lines. -/
theorem literalRead_length :
    ∀ (fuel : Nat) (st : LexState), 1 ≤ fuel → fuel ≤ availState st →
      ∃ bs st2, literalRead fuel st = .ok (bs, st2) ∧ bs.length = fuel := by
  intro fuel
  induction fuel using Nat.strong_induction_on with
  | _ fuel ih =>
    match fuel with
    | 0 => intro st h1 _; omega
    | 1 => intro st _ _; exact ⟨[st.current], st, rfl, rfl⟩
    | n + 2 =>
      intro st _ hav
      cases hline : st.line with
      | nil =>
        cases hrest : st.rest with
        | nil =>
          exfalso
          have h1 : availState st = 1 := by
            simp [availState, availLines, hline, hrest]
          omega
        | cons l ls =>
          have hca : st.consumeAll = .ok { line := l, rest := ls } := by
            simp [LexState.consumeAll, LexState.newLine, hline, hrest]
          have hsz : availState st =
              1 + availState { line := l, rest := ls } := by
            simp [availState, availLines, hline, hrest]
          obtain ⟨bs, st3, hr, hlen⟩ :=
            ih (n + 1) (by omega) { line := l, rest := ls } (by omega)
              (by omega)
          refine ⟨st.current :: bs, st3, ?_, by simp [hlen]⟩
          simp [literalRead, hca, hr]
      | cons c t =>
        have hca : st.consumeAll = .ok { st with line := t } := by
          simp [LexState.consumeAll, hline]
        have hsz : availState st =
            1 + availState { st with line := t } := by
          simp [availState, availLines, hline]
          ring
        obtain ⟨bs, st3, hr, hlen⟩ :=
          ih (n + 1) (by omega) { st with line := t } (by omega) (by omega)
        refine ⟨st.current :: bs, st3, ?_, by simp [hlen]⟩
        simp [literalRead, hca, hr]

/-- C7 (amended): lexing a literal whose count is a run of digits of
value `n` with `n ≤ 2^31 - 1` yields, whenever the following lines
offer at least `n` stream positions, a token of length exactly `n` —
independent of how the payload is split across underlying lines, with
`n = 0` yielding the empty token — and lexing fails with a parse error
on any non-digit byte (other than the closing bracket) in the length
count. Counts of value at least `2^31` fail the 32-bit length parse. -/
theorem literal_token_exact_length (ds tail : List Nat)
    (lines : List (List Nat))
    (hds : ∀ d ∈ ds, zeroByte ≤ d ∧ d ≤ nineByte)
    (hne : ds ≠ [])
    (hbound : digitsValue ds ≤ 2147483647)
    (hlines : lines ≠ [])
    (hav : digitsValue ds ≤ availLines lines) :
    (lexLiteral { line := ds ++ rightCurlyByte :: tail,
                  rest := lines }).map (fun r => r.1.length)
      = .ok (digitsValue ds) ∧
    (∀ (pre : List Nat) (c : Nat) (post : List Nat)
        (rest2 : List (List Nat)),
      (∀ d ∈ pre, zeroByte ≤ d ∧ d ≤ nineByte) →
      (c < zeroByte ∨ nineByte < c) → c ≠ rightCurlyByte →
      (lexLiteral { line := pre ++ c :: post, rest := rest2 }).isOk
        = false) := by
  constructor
  · have hcd := literalCountDigits_digits ds tail hds
    have hpl : parseLiteralLength ds = .ok (digitsValue ds) := by
      simp [parseLiteralLength, hne, hbound]
    cases lines with
    | nil => exact absurd rfl hlines
    | cons l ls =>
      have hnl : LexState.newLine
          { line := ds ++ rightCurlyByte :: tail, rest := l :: ls }
            = .ok { line := l, rest := ls } := by
        simp [LexState.newLine]
      by_cases hz : digitsValue ds = 0
      · simp [lexLiteral, hcd, hpl, hnl, hz, Except.map]
      · have hav2 : digitsValue ds ≤ availState { line := l, rest := ls } := by
          have hx : availState { line := l, rest := ls }
              = availLines (l :: ls) := by
            simp [availState, availLines]
          simp only [hx]
          exact hav
        obtain ⟨bs, st2, hr, hlen⟩ := literalRead_length (digitsValue ds)
          { line := l, rest := ls } (by omega) hav2
        simp [lexLiteral, hcd, hpl, hnl, hz, hr, hlen, Except.map]
  · intro pre c post rest2 hpre hc hcc
    have hk := literalCountDigits_nondigit pre c post hpre hc hcc
    cases hrec : literalCountDigits (pre ++ c :: post) with
    | ok ds2 =>
      rw [hrec] at hk
      exact absurd hk (by simp [Except.isOk, Except.toBool])
    | error e => simp [lexLiteral, hrec, Except.isOk, Except.toBool]

/-- Witness for the amended C7: the literal `{5}` followed by the payload
lines `ab` and `cde` (seven available stream positions) yields a token
of length exactly 5, and a space inside the count (`{1 }`) is a parse
error. -/
theorem literal_token_exact_length_witness :
    (lexLiteral { line := [53] ++ rightCurlyByte :: [],
                  rest := [[97, 98], [99, 100, 101]] }).map
        (fun r => r.1.length) = .ok (digitsValue [53]) ∧
    digitsValue [53] = 5 ∧
    (lexLiteral { line := [49] ++ 32 :: [],
                  rest := [[97]] }).isOk = false := by
  have h := literal_token_exact_length [53] [] [[97, 98], [99, 100, 101]]
    (by decide) (by decide) (by decide) (by decide) (by decide)
  exact ⟨h.1, by decide, h.2 [49] 32 [] [[97]] (by decide) (by decide)
    (by decide)⟩

/-- C7 counterexample: the count `2147483648` (= 2^31) with a payload of
2^31 octets available does not yield a token of length 2^31 — the
32-bit parse of the count fails with a parse error, so the universal
quantification of the claim over all `n ≥ 0` fails at this input. -/
theorem literal_count_overflow_counterexample :
    (lexLiteral
        { line := [50, 49, 52, 55, 52, 56, 51, 54, 52, 56] ++
            rightCurlyByte :: [],
          rest := [List.replicate 2147483648 97] }).isOk = false ∧
    digitsValue [50, 49, 52, 55, 52, 56, 51, 54, 52, 56] = 2147483648 ∧
    availLines [List.replicate 2147483648 97] = 2147483649 := by
  refine ⟨rfl, by decide, ?_⟩
  have h : ∀ (n : Nat), availLines [List.replicate n 97] = n + 1 := by
    intro n
    simp [availLines, List.length_replicate]
  exact h 2147483648

/-- C2: the code evaluated at the failing input. For the two-message
mailbox with ascending UIDs `[6, 9]`, `getUid 1` returns UID 9 — the UID
at 0-based position 1, not position 0 as the `n-1` mapping of the claim
requires — and `getUid 2` (the 1-based sequence number of the last message)
panics with an index-out-of-range instead of returning UID 9. -/
theorem getUid_off_by_one :
    MailboxW.getUid { provider := some provTwo, seqNums := none } 1 =
      .ok (9, { provider := some provTwo, seqNums := some [6, 9] }) ∧
    MailboxW.getUid { provider := some provTwo, seqNums := none } 2 =
      .panic "runtime error: index out of range" ∧
    (9 : Int) ≠ 6 := by
  refine ⟨rfl, rfl, by decide⟩

/-- C10: `getUid` indexes the cached ascending UID array with the raw
sequence number, without bounds or zero checks: on a mailbox whose
provider enumerates `uids` (nonempty), sequence number `uids.length`
(the 1-based number of the last message) panics past the end of the
array, sequence number 0 is accepted and returns the first UID, and
`fetch` with sequence number `uids.length` panics likewise. -/
theorem getUid_unchecked_indexing (p : Provider) (uids : List Int)
    (hall : p.allUids = .ok uids) (hne : uids ≠ []) :
    MailboxW.getUid { provider := some p, seqNums := none }
        (uids.length : Int) = .panic "runtime error: index out of range" ∧
    MailboxW.getUid { provider := some p, seqNums := none } 0 =
      .ok (uids.head hne, { provider := some p, seqNums := some uids }) ∧
    MailboxW.fetchSeq { provider := some p, seqNums := none }
        (uids.length : Int) = .panic "runtime error: index out of range" := by
  have hlen : ¬ ((0 : Int) ≤ (uids.length : Int) ∧
      (uids.length : Int).toNat < uids.length) := by
    intro h
    omega
  have hpos : 0 < uids.length := List.length_pos.mpr hne
  refine ⟨?_, ?_, ?_⟩
  · simp [MailboxW.getUid, hall, goIndex, hlen]
  · cases uids with
    | nil => exact absurd rfl hne
    | cons a t => simp [MailboxW.getUid, hall, goIndex]
  · simp [MailboxW.fetchSeq, MailboxW.getUid, hall, goIndex, hlen]

/-- Witness for C10 at the concrete mailbox with UIDs `[4, 7]`. -/
theorem getUid_unchecked_indexing_witness :
    MailboxW.getUid { provider := some provTwoW, seqNums := none }
        ((2 : Nat) : Int) = .panic "runtime error: index out of range" ∧
    MailboxW.getUid { provider := some provTwoW, seqNums := none } 0 =
      .ok (4, { provider := some provTwoW, seqNums := some [4, 7] }) := by
  have h := getUid_unchecked_indexing provTwoW [4, 7] rfl (by decide)
  exact ⟨by simpa using h.1, by simpa using h.2.1⟩

/-- C3: CAPABILITY advertises `LOGINDISABLED` exactly on an
unauthenticated session of a STARTTLS-negotiable listener whose
connection is not yet TLS-active; but LOGIN executed in that very state
still reaches the `Authenticate` call of the auth backend (the handler never
consults the encryption level) and, when the backend accepts, answers a
final OK and authenticates the session — not the claimed final NO with
the backend uninvoked. -/
theorem logindisabled_advertised_but_login_honoured :
    (∀ s : Session,
      "LOGINDISABLED" ∈ capabilityList s ↔
        (s.st = .notAuthenticated ∧ s.listenerEncryption = .starttls ∧
         s.encryption ≠ .tls)) ∧
    loginExecute sessPlainStarttls authAlwaysYes "a1" "bob" "pw" =
      ([Resp.final (okFinal "a1" "LOGIN completed")],
       { sessPlainStarttls with st := .authenticated, user := "bob" },
       true) := by
  constructor
  · intro s
    obtain ⟨st, u, mb, enc, lenc⟩ := s
    cases st <;> cases lenc <;> cases enc <;>
      simp [capabilityList]
  · rfl

/-- C1: the code evaluated at the failing inputs. NOOP in Selected state
with a failing provider emits a final NO *and then also* the final OK
(the error branch lacks a `return`): two tagged responses instead of the
claimed single final NO. FETCH in Authenticated-but-not-Selected state
emits the final BAD and then — again for lack of a `return` — falls into
the fetch loop and panics dereferencing the nil selected mailbox,
instead of stopping at a single final BAD. -/
theorem handler_single_final_response_bug :
    noopExecute sessSelFailing "a1" =
      ([Resp.final (noFinal "a1" "NOOP failed"),
        Resp.final (okFinal "a1" "NOOP Completed")], .done sessSelFailing) ∧
    countFinals (noopExecute sessSelFailing "a1").1 = 2 ∧
    fetchExecute sessAuthNoMailbox "a2" [{ start := 1, stop := none }] =
      ([Resp.final (badFinal "a2" "Must SELECT first")],
       .panicked
         "runtime error: invalid memory address or nil pointer dereference") :=
  ⟨rfl, rfl, rfl⟩

/-- C6 counterexample: a wildcard range endpoint does not denote the
largest sequence number in use. On the two-message mailbox, the parser
turns `1:*` into `1:2147483647` (the `largestSequenceNumber` sentinel =
`math.MaxInt32`), and `fetch.execute` then emits the `1 FETCH` line and
panics indexing sequence number 2 past the cached UID array — not the
two untagged lines followed by a tagged OK that the claim (with `*` = 2)
requires. -/
theorem fetch_wildcard_counterexample :
    expectSequenceNumber SeqToken.star = 2147483647 ∧
    fetchExecute sessTwoMsgs "a1"
        [{ start := 1, stop := some (expectSequenceNumber SeqToken.star) }] =
      ([Resp.untaggedOnly [toString (1 : Int) ++ " FETCH"]],
       .panicked "runtime error: index out of range") ∧
    (provTwoMsgs.allUids = .ok [10, 20] ∧ ([10, 20] : List Int).length = 2) :=
  ⟨rfl, rfl, rfl, rfl⟩

/-- C6 (amended): for a sequence range `a:b` with concrete endpoints,
`a ≤ b`, and every fetch in the range succeeding on the selected
cached UID array of the mailbox, FETCH emits exactly `b - a + 1` untagged
`"<n> FETCH"` lines in order `n = a..b` followed by a single tagged OK;
the wildcard `*` is parsed as the sentinel `largestSequenceNumber`
(`math.MaxInt32`), not as the largest sequence number in use. -/
theorem fetch_range_line_count (s : Session) (tag : String) (p : Provider)
    (uids : List Int) (a b : Int)
    (hst : s.st = .selected)
    (hmb : s.mailbox = some { provider := some p, seqNums := some uids })
    (hab : a ≤ b)
    (hok : ∀ t : Nat, t < (b - a + 1).toNat →
      fetchSucceedsAt p uids (a + t) = true) :
    fetchExecute s tag [{ start := a, stop := some b }] =
      (rangePartials a (b - a + 1).toNat ++
         [Resp.final (okFinal tag "FETCH completed")], .done s) ∧
    (rangePartials a (b - a + 1).toNat).length = (b - a + 1).toNat ∧
    expectSequenceNumber SeqToken.star = largestSequenceNumber := by
  have hfuel : rangeIterations a (some b) = (b - a + 1).toNat := by
    simp [rangeIterations, if_pos hab]
  have hloop := fetchRangeLoop_all_ok p uids tag b ((b - a + 1).toNat) s a
    hmb hab rfl hok
  refine ⟨?_, rangePartials_length a ((b - a + 1).toNat), rfl⟩
  have hsel : s.st = SessState.selected := hst
  simp [fetchExecute, fetchRanges, hfuel, hloop, hsel]

/-- Witness for the amended C6 on the concrete range `0:1` over the
cached two-message mailbox. -/
theorem fetch_range_line_count_witness :
    fetchExecute sessTwoCached "a1" [{ start := 0, stop := some 1 }] =
      (rangePartials 0 ((1 - 0 + 1 : Int)).toNat ++
         [Resp.final (okFinal "a1" "FETCH completed")], .done sessTwoCached) := by
  have h := fetch_range_line_count sessTwoCached "a1" provTwoMsgs [10, 20] 0 1
    rfl rfl (by decide) (by decide)
  exact h.1

/-- C8 counterexample: STATUS does not leave the session in its pre-call
state. On a Selected session holding mailbox `A`, STATUS of the existing
mailbox `B` permanently overwrites the selected mailbox with `B` (the
state field stays Selected, so later fetches run against `B`). And
STATUS of a missing mailbox does not produce the claimed tagged NO with
state Authenticated: the nil result of the store is wrapped into a non-nil
wrapper, so the handler proceeds and panics dereferencing the nil
provider in the mailbox-info query. -/
theorem status_changes_mailbox_counterexample :
    ((statusExecute sessSelA storeOnlyB "a1" ["B"]).2.sessionOf.map
        Session.mailboxPath) = some (some ["B"]) ∧
    sessSelA.mailboxPath = some ["A"] ∧
    (some ["B"] : Option (List String)) ≠ some ["A"] ∧
    statusExecute sessSelA storeOnlyB "a2" ["nope"] =
      ([], .panicked
        "runtime error: invalid memory address or nil pointer dereference") := by
  refine ⟨rfl, rfl, by decide, rfl⟩

/-- C8 (amended): STATUS of an existing mailbox leaves the session
state (and user) unchanged but overwrites the selected mailbox of the session
with the freshly wrapped STATUS target; the not-found branch (tagged NO,
state to Authenticated) is dead code because the wrapper installed by
`selectMailbox` is never nil — a store reporting a missing mailbox
instead leads to a panic in the mailbox-info query. -/
theorem status_preserves_state_overwrites_mailbox (s : Session)
    (store : Mailstore) (tag : String) (path : List String) (p : Provider)
    (lines : List String)
    (hst : ¬ s.st = .notAuthenticated)
    (hfound : store.mailboxAt path = .ok (some p))
    (hinfo : addMailboxInfo (some (wrapMailbox (some p))) = .ok lines) :
    statusExecute s store tag path =
      ([Resp.final (addUntagged (okFinal tag "STATUS completed") lines)],
       .done { s with mailbox := some (wrapMailbox (some p)) }) ∧
    ({ s with mailbox := some (wrapMailbox (some p)) } : Session).st = s.st ∧
    ({ s with mailbox := some (wrapMailbox (some p)) } : Session).user
      = s.user := by
  refine ⟨?_, rfl, rfl⟩
  simp [statusExecute, selectMailboxS, getMailboxW, hfound, hinfo, hst]

/-- Witness for the amended C8: STATUS of mailbox `B` from a Selected
session holding `A` keeps the state Selected and installs `B`. -/
theorem status_preserves_state_witness :
    statusExecute sessSelA storeOnlyB "a1" ["B"] =
      ([Resp.final (addUntagged (okFinal "a1" "STATUS completed")
          ["2 EXISTS", "0 RECENT",
           "OK [UNSEEN 3] Message 3 is first unseen",
           "OK [UIDVALIDITY 2] UIDs valid",
           "OK [UIDNEXT 9] Predicted next UID"])],
       .done { sessSelA with
                 mailbox := some (wrapMailbox (some provStatusB)) }) := by
  have h := status_preserves_state_overwrites_mailbox sessSelA storeOnlyB
    "a1" ["B"] provStatusB
    ["2 EXISTS", "0 RECENT",
     "OK [UNSEEN 3] Message 3 is first unseen",
     "OK [UIDVALIDITY 2] UIDs valid",
     "OK [UIDNEXT 9] Predicted next UID"]
    (by decide) rfl rfl
  exact h.1

/-- C5 counterexample: LOGOUT does not clear the selected mailbox. On a
concrete Selected session holding a mailbox, the session after
`logout.execute` still holds that same mailbox, while the claim says the
transition to Unauthenticated clears it. -/
theorem logout_keeps_mailbox_counterexample :
    ((logoutExecute
        { st := .selected, user := "alice",
          mailbox := some { provider := none, seqNums := none },
          encryption := .unencrypted,
          listenerEncryption := .unencrypted } "a1").2.mailbox).isSome = true :=
  rfl

/-- C5 (amended): LOGOUT emits a single final OK with the close flag,
preceded (on the wire) by the untagged `BYE IMAP4rev1 Server logging out`
line; it sets the state to Unauthenticated and clears the user, but the
selected mailbox field is left unchanged. -/
theorem logout_execute_spec (s : Session) (tag : String) :
    logoutExecute s tag =
      ([Resp.final { tag := tag, cond := .ok, message := "LOGOUT completed",
                     closeConnection := true,
                     untagged := ["BYE IMAP4rev1 Server logging out"],
                     bufReplacement := none }],
       { s with st := .notAuthenticated, user := "" }) ∧
    (logoutExecute s tag).2.mailbox = s.mailbox :=
  ⟨rfl, rfl⟩

/-- C9 counterexample: a panic whose value is not a `parseError` (here a
runtime index-out-of-range error) is not converted to an untagged BYE by
the recover at the top of the session loop; the unchecked type assertion
re-panics and the process aborts. -/
theorem recover_non_parse_error_counterexample :
    (clientHandleRecover
        (PanicValue.otherValue "runtime error: index out of range")).isBye
      = false ∧
    clientHandleRecover
        (PanicValue.otherValue "runtime error: index out of range")
      = .processAbort
          (.otherValue "runtime error: index out of range") :=
  ⟨rfl, rfl⟩

/-- C9 (amended): only panics carrying a `parseError` value are caught at
the top of the session loop and converted to an untagged BYE; a panic
with any other value is never converted to a BYE — in the older loop the
unchecked type assertion re-panics (aborting the process) and the newer
loop logs it (production) or re-panics (otherwise). -/
theorem recover_parse_error_only (m : String) (production : Bool) :
    clientHandleRecover (.parseErr m) = .byeEmitted m ∧
    imapClientHandleRecover production (.parseErr m) = .byeEmitted m ∧
    (clientHandleRecover (.otherValue m)).isBye = false ∧
    (imapClientHandleRecover production (.otherValue m)).isBye = false := by
  refine ⟨rfl, rfl, rfl, ?_⟩
  cases production <;> rfl

/-- C4: `starttls.execute` writes the tagged OK line over the plaintext
connection strictly before the TLS upgrade of the socket, leaves the
session at encryption level TLS-active, and its final response carries
the replacement streams, which the session loop installs before the next
command is parsed. -/
theorem starttls_ordering (s : Session) (tag : String) (newConn cur : Nat) :
    starttlsExecute s tag newConn =
      ([STEvent.writePlain (tag ++ " OK Begin TLS negotiation now" ++ "\r\n"),
        STEvent.upgradeTLS,
        STEvent.emit (.final { tag := "", cond := .ok, message := "",
                               closeConnection := false, untagged := [],
                               bufReplacement := some newConn })],
       { s with encryption := .tls }) ∧
    (starttlsExecute s tag newConn).2.encryption = .tls ∧
    nextParseBuffers cur (starttlsResponses s tag newConn) = some newConn :=
  ⟨rfl, rfl, rfl⟩
